import Mathlib

/-!
keep-core: delegation payload, staking helper, staking script, dashboard fragments.

A shallow embedding of four JavaScript sources:

* `solidity/test/helpers/stakeDelegate.js`             (namespace `StakeDelegateJs`)
* `infrastructure/eth-networks/scripts/stake-accounts.js` (namespace `StakeAccountsJs`)
* `solidity/dashboard/src/hooks/useEtherscanUrl.js`     (namespace `UseEtherscanUrlJs`)
* `contracts/solidity/dashboard/src/components/DelegatedTokens.jsx`
                                                          (namespace `DelegatedTokensJsx`)

Runtime facilities the sources call (string `substr`, Node `Buffer`, BN `toString('hex')`,
the `&&` operator, `===`, React text children) are modelled in namespace `JS`.
-/

namespace JS

/-- A JavaScript string, as the list of its characters. All strings handled by the
sources are ASCII, where characters and UTF-16 code units coincide. -/
abbrev Str := List Char

/-- A Node `Buffer`, as the list of its bytes. -/
abbrev Buffer := List Nat

/-- `s.substr(start)` with a single non-negative argument: the string from index `start` on
(empty when `start` is past the end). -/
def substr (s : Str) (start : Nat) : Str := s.drop start

/-- Value of one hex digit as Node decodes it: `0-9`, `a-f`, `A-F`; `none` for any other
character. -/
def unhex (c : Char) : Option Nat :=
  let n := c.toNat
  if 48 ≤ n ∧ n ≤ 57 then some (n - 48)
  else if 97 ≤ n ∧ n ≤ 102 then some (n - 87)
  else if 65 ≤ n ∧ n ≤ 70 then some (n - 55)
  else none

/-- Whether a character is a hex digit. -/
def isHexDigit (c : Char) : Bool := (unhex c).isSome

/-- `Buffer.from(s, 'hex')`: Node decodes the string two characters at a time, each pair
giving one byte; decoding stops at the first pair that is not two hex digits, and a single
trailing character is dropped (the documented "data truncation"). It never throws for a
string argument. -/
def Buffer.fromHex : Str → Buffer
  | a :: b :: rest =>
    match unhex a, unhex b with
    | some hi, some lo => (16 * hi + lo) :: Buffer.fromHex rest
    | _, _ => []
  | _ => []

/-- `Buffer.concat(list)`: the bytes of all buffers, in list order. -/
def Buffer.concat (list : List Buffer) : Buffer := list.flatten

/-- `buf.toString('hex')`: two lowercase hex digits per byte. -/
def Buffer.toHex : Buffer → Str
  | [] => []
  | b :: rest => Nat.digitChar (b / 16) :: Nat.digitChar (b % 16) :: Buffer.toHex rest

/-- `bn.toString('hex')` for a non-negative big number: lowercase hex digits without
leading zeros (`"0"` for zero). -/
def bnToHex (n : Nat) : Str := Nat.toDigits 16 n

/-- Reading a string of hex digits as a number, most significant digit first. -/
def parseHex (s : Str) : Nat :=
  s.foldl (fun acc c => 16 * acc + (unhex c).getD 0) 0

/-- The JavaScript values the sources handle. `number n` is a number with integral value
`n`; `nan` is `NaN`; `object ref` is any object (tx receipt, big number, error, ...),
identified by reference. -/
inductive Value where
  | undefined
  | null
  | boolean (b : Bool)
  | number (n : Int)
  | nan
  | string (s : Str)
  | object (ref : Nat)
  deriving DecidableEq, Repr

/-- `ToBoolean`: the falsy values are `undefined`, `null`, `false`, `0`, `NaN` and `''`. -/
def toBoolean : Value → Bool
  | .undefined => false
  | .null => false
  | .boolean b => b
  | .number n => n != 0
  | .nan => false
  | .string s => !s.isEmpty
  | .object _ => true

/-- `a && b`: evaluates `a`; when it is falsy the result is `a` itself and `b` is not
evaluated, otherwise the result is `b`. -/
def logicalAnd (a : Value) (b : Unit → Value) : Value :=
  if toBoolean a then b () else a

/-- `a === b`: same type and same value; `NaN` equals nothing, objects are equal only to
themselves. -/
def strictEquals (a b : Value) : Bool :=
  match a, b with
  | .nan, _ => false
  | _, .nan => false
  | x, y => decide (x = y)

/-- `String(n)` for a number of integral value `n` (decimal digits, valid below `10^21`). -/
def numberToString (n : Int) : Str :=
  if n < 0 then '-' :: Nat.toDigits 10 n.natAbs else Nat.toDigits 10 n.toNat

/-- How React renders one expression child `{v}` of a host element: strings and numbers
become text, `undefined`, `null`, `true` and `false` render nothing; an object is refused
("Objects are not valid as a React child"), modelled by `none`. -/
def renderChild : Value → Option Str
  | .undefined => some []
  | .null => some []
  | .boolean _ => some []
  | .number n => some (numberToString n)
  | .nan => some ['N', 'a', 'N']
  | .string s => some s
  | .object _ => none

/-- How an awaited promise settles: fulfilled with a value, or rejected with an error
(which `await` rethrows). -/
inductive Completion where
  | normal (v : Value)
  | throw (e : Value)
  deriving DecidableEq, Repr

/-- A well-formed hex string of `n` digits: `0x` followed by exactly `n` hex digits. -/
def isHexString (n : Nat) (s : Str) : Bool :=
  s.take 2 == ['0', 'x'] && (s.drop 2).length == n && (s.drop 2).all isHexDigit

/-- A valid 20-byte hex address: `0x` followed by 40 hex digits. -/
def isAddress (s : Str) : Bool := isHexString 40 s

end JS

namespace Spec

open JS

/-- Numeric value of a hex digit in the usual reading (0 for a non-digit). -/
def hexValue (c : Char) : Nat :=
  if c.isDigit then c.toNat - '0'.toNat
  else if 'a' ≤ c ∧ c ≤ 'f' then c.toNat - 'a'.toNat + 10
  else if 'A' ≤ c ∧ c ≤ 'F' then c.toNat - 'A'.toNat + 10
  else 0

/-- The `decode` of the specification: strip the first two characters and hex-decode the
rest, byte `i` being made of digits `2i` (high) and `2i+1` (low). -/
def decode (address : Str) : Buffer :=
  let digits := address.drop 2
  (List.range (digits.length / 2)).map
    (fun i => 16 * hexValue (digits.getD (2 * i) '0') + hexValue (digits.getD (2 * i + 1) '0'))

end Spec

namespace StakeDelegateJs

open JS

/-- Lines 2-6 of `stakeDelegate`: the delegation payload. -/
def delegation (operator beneficiary authorizer : Str) : Buffer :=
  Buffer.concat [
    Buffer.fromHex (substr beneficiary 2),
    Buffer.fromHex (substr operator 2),
    Buffer.fromHex (substr authorizer 2)
  ]

/-- The token contract handed to the helper: its `address` and the outcome with which the
promise returned by `approve(spender, amount, {from})` settles. -/
structure Token where
  address : Value
  approve : Value → Value → Value → Completion

/-- The staking contract handed to the helper: its `address` and the outcome of
`receiveApproval(from, value, token, extraData, {from})`. -/
structure StakingContract where
  address : Value
  receiveApproval : Value → Value → Value → Buffer → Value → Completion

/-- A contract call issued by the helper, with its arguments (`sender` is the `from`
field of the options object). -/
inductive Call where
  | approve (spender amount sender : Value)
  | receiveApproval (owner amount token : Value) (extraData : Buffer) (sender : Value)
  deriving DecidableEq, Repr

/-- Whether a call is a `receiveApproval` call. -/
def Call.isReceiveApproval : Call → Bool
  | .receiveApproval _ _ _ _ _ => true
  | .approve _ _ _ => false

/-- Outcome of one run of the helper: the calls issued, in order, and how the returned
promise settles. -/
structure Run where
  calls : List Call
  result : Completion

/-- The async function `stakeDelegate`. -/
def stakeDelegate (stakingContract : StakingContract) (token : Token) (owner : Value)
    (operator beneficiary authorizer : Str) (stake : Value) : Run :=
  let delegation := delegation operator beneficiary authorizer
  let approveCall := Call.approve stakingContract.address stake owner
  match token.approve stakingContract.address stake owner with
  | .throw e => ⟨[approveCall], .throw e⟩
  | .normal success =>
    if toBoolean success then
      ⟨[approveCall, Call.receiveApproval owner stake token.address delegation owner],
        stakingContract.receiveApproval owner stake token.address delegation owner⟩
    else
      ⟨[approveCall], .normal (.boolean false)⟩

/-- Whether the caller observes the approval as successful: the awaited promise is
fulfilled with a truthy value. -/
def approvalObserved : Completion → Bool
  | .normal v => toBoolean v
  | .throw _ => false

end StakeDelegateJs

namespace StakeAccountsJs

open JS

/-- The constant `contractOwnerAddress` (line 10). -/
def contractOwnerAddress : Str := "0x923C5Dbf353e99394A21Aa7B67F3327Ca111C67D".toList

/-- The constant `authorizer` (line 12). -/
def authorizer : Str := contractOwnerAddress

/-- The constant `operatorAddresses` (lines 29-36). -/
def operatorAddresses : List Str := [
  "0x1833a1a046db585d9c405ad93bfce085d43b2b04".toList,
  "0xb4f78caa0ad8c8c700eaac42b68e5db4f9efeddf".toList,
  "0x9f778b5d9b6e598e5a9dfb789500f6cf20e3203e".toList,
  "0xc2f4c01a446f199fce344df1167c92650651f9c0".toList,
  "0x32ce883e94ea3a75063e47064c777839aa4a0c94".toList,
  "0xca8754f7060a0648824f274e3a4d897fa497139d".toList
]

/-- What the script reads from the contract artifacts (lines 43-59): the value of
`tokenStakingContract.address` and the string `keepRandomBeaconOperatorContractAddress`. -/
structure Artifacts where
  tokenStakingContract_address : Value
  keepRandomBeaconOperatorContractAddress : Str

/-- A transaction issued by the script: the contract method, its arguments and the `from`
account of `send`. -/
inductive Tx where
  | approveAndCall (spender : Value) (amount : Str) (extraData : Str) (sender : Str)
  | authorizeOperatorContract (operator : Str) (operatorContract : Str) (sender : Str)
  deriving DecidableEq, Repr

/-- `formatAmount(amount, decimals)` (lines 79-81). -/
def formatAmount (amount decimals : Nat) : Str :=
  '0' :: 'x' :: bnToHex (amount * 10 ^ decimals)

/-- The local `delegation` of `stakeOperatorAccount` (lines 63-67). -/
def delegation (operatorAddress contractOwnerAddress : Str) : Str :=
  '0' :: 'x' :: Buffer.toHex (Buffer.concat [
    Buffer.fromHex (substr contractOwnerAddress 2),
    Buffer.fromHex (substr operatorAddress 2),
    Buffer.fromHex (substr contractOwnerAddress 2)
  ])

/-- One invocation of an async function of the script: what it does synchronously up to
its single `await` (one `console.log`, one transaction sent) and the `console.log` that
runs when the awaited transaction is fulfilled. -/
structure AsyncCall where
  announce : Str
  tx : Tx
  done : Str

/-- The async function `stakeOperatorAccount` (lines 61-77). -/
def stakeOperatorAccount (artifacts : Artifacts) (operatorAddress contractOwnerAddress : Str) :
    AsyncCall where
  announce := "Staking 2000000 KEEP tokens on operator account ".toList ++ operatorAddress
  tx := Tx.approveAndCall artifacts.tokenStakingContract_address (formatAmount 20000000 18)
    (delegation operatorAddress contractOwnerAddress) contractOwnerAddress
  done := "Account ".toList ++ operatorAddress ++ " staked!".toList

/-- The async function `authorizeOperatorContract` (lines 83-92). -/
def authorizeOperatorContract (artifacts : Artifacts) (operatorAddress authorizer : Str) :
    AsyncCall where
  announce := "Authorizing Operator Contract ".toList ++
    artifacts.keepRandomBeaconOperatorContractAddress ++
    " for operator account ".toList ++ operatorAddress
  tx := Tx.authorizeOperatorContract operatorAddress
    artifacts.keepRandomBeaconOperatorContractAddress authorizer
  done := "Authorized!".toList

/-- How the promise of a sent transaction settles. -/
inductive Outcome where
  | fulfilled
  | rejected (error : Value)
  deriving DecidableEq, Repr

/-- Whether an outcome is a rejection. -/
def Outcome.isRejected : Outcome → Bool
  | .rejected _ => true
  | .fulfilled => false

/-- State of the Node process running the script: what was written to standard output and
to standard error, the transactions sent so far (in order), the async calls suspended at
their `await` (index of the awaited transaction in `sent`, and the message to log on
fulfilment), and the exit code once the process has ended (`none` while it runs). -/
structure Process where
  stdout : List Str
  stderr : List Value
  sent : List Tx
  pending : List (Nat × Str)
  exited : Option Nat
  deriving DecidableEq, Repr

/-- The process before the first statement of the script. -/
def Process.start : Process := ⟨[], [], [], [], none⟩

/-- Calling an async function: its synchronous part runs at once (log, send), then it is
suspended on the promise of the transaction it sent. -/
def Process.call (p : Process) (c : AsyncCall) : Process :=
  { p with
    stdout := p.stdout ++ [c.announce]
    sent := p.sent ++ [c.tx]
    pending := p.pending ++ [(p.sent.length, c.done)] }

/-- The top-level statements (lines 94-106): two `forEach` loops that call the async
functions and attach the `catch` handlers, run to completion before any promise reaction. -/
def main (artifacts : Artifacts) : Process :=
  let afterStaking := operatorAddresses.foldl
    (fun p operatorAddress =>
      p.call (stakeOperatorAccount artifacts operatorAddress contractOwnerAddress))
    Process.start
  operatorAddresses.foldl
    (fun p operatorAddress =>
      p.call (authorizeOperatorContract artifacts operatorAddress authorizer))
    afterStaking

/-- The error carried by an outcome. -/
def Outcome.error? : Outcome → Option Value
  | .rejected e => some e
  | .fulfilled => none

/-- The async call awaiting transaction `i` resumes after the promise has settled; the
second component collects the errors whose `catch` handlers are thereby queued. On
fulfilment the call logs its message and returns; on rejection the `await` throws, the call
ends and the `catch` handler attached to it (lines 95, 102) is queued behind the reactions
already waiting. A transaction that no call awaits changes nothing. -/
def Process.resume (outcome : Nat → Outcome) (s : Process × List Value) (i : Nat) :
    Process × List Value :=
  match s.1.pending.lookup i with
  | none => s
  | some done =>
    match outcome i with
    | .fulfilled =>
      ({ s.1 with
          stdout := s.1.stdout ++ [done]
          pending := s.1.pending.filter (fun q => q.1 != i) }, s.2)
    | .rejected error =>
      ({ s.1 with pending := s.1.pending.filter (fun q => q.1 != i) }, s.2 ++ [error])

/-- One turn of the event loop in which the promises of the transactions of `batch` settle,
in that order. A process that has ended does nothing. Otherwise every call awaiting one of
them resumes, and then the first queued `catch` handler runs
`console.error(error); process.exit(1)` (lines 96-97, 103-104), which ends the process
before any other handler. -/
def Process.turn (outcome : Nat → Outcome) (p : Process) (batch : List Nat) : Process :=
  match p.exited with
  | some _ => p
  | none =>
    match batch.foldl (Process.resume outcome) (p, []) with
    | (q, []) => q
    | (q, error :: _) => { q with stderr := q.stderr ++ [error], exited := some 1 }

/-- The event loop has nothing left to wait for: a process that is still running ends, with
the implicit exit code 0, whether or not calls are still suspended at their `await`. -/
def Process.idle (p : Process) : Process :=
  match p.exited with
  | some _ => p
  | none => { p with exited := some 0 }

/-- What the runtime does after the top-level statements: either the promises of some
transactions settle in one turn, or the event loop runs empty. When the loop runs empty is
decided by the runtime (network handles and timers of the provider), not by the script. -/
inductive Event where
  | settled (batch : List Nat)
  | idle
  deriving DecidableEq, Repr

/-- One event applied to the process. -/
def Process.step (outcome : Nat → Outcome) (p : Process) : Event → Process
  | .settled batch => p.turn outcome batch
  | .idle => p.idle

/-- The whole run of the script: the top-level statements, then the events in order,
transaction `i` settling with outcome `outcome i`. -/
def run (artifacts : Artifacts) (outcome : Nat → Outcome) (events : List Event) : Process :=
  events.foldl (Process.step outcome) (main artifacts)

/-- The exit code of the process, `none` while it is running. -/
def Process.exitCode (p : Process) : Option Nat := p.exited

/-- The transactions that settle during a list of events, in order. -/
def settledTxs : List Event → List Nat
  | [] => []
  | .settled batch :: rest => batch ++ settledTxs rest
  | .idle :: rest => settledTxs rest

/-- Each transaction of the script settles at most once. -/
def wellFormed (events : List Event) : Prop :=
  (settledTxs events).Nodup ∧ ∀ i ∈ settledTxs events, i < 12

/-- How a list of events ends the script, read off the events alone: exit code 1 at the
first turn in which a transaction is rejected, exit code 0 if the event loop runs empty
before that, no exit otherwise. -/
def verdict (outcome : Nat → Outcome) : List Event → Option Nat
  | [] => none
  | .idle :: _ => some 0
  | .settled batch :: rest =>
    if batch.any (fun i => (outcome i).isRejected) then some 1 else verdict outcome rest

/-- The error of the first rejection observed before the script ends, if any. -/
def firstError (outcome : Nat → Outcome) : List Event → Option Value
  | [] => none
  | .idle :: _ => none
  | .settled batch :: rest =>
    match batch.find? (fun i => (outcome i).isRejected) with
    | some r => (outcome r).error?
    | none => firstError outcome rest

end StakeAccountsJs

namespace UseEtherscanUrlJs

open JS

/-- The hook `useEtherscanUrl` (lines 4-8); `chainID` is the module constant holding the
value returned by `getChainId()` (line 3). -/
def useEtherscanUrl (chainID : Value) : Str :=
  if strictEquals chainID (.number 30) then "https://explorer.rsk.co/".toList
  else "https://explorer.testnet.rsk.co".toList

end UseEtherscanUrlJs

namespace DelegatedTokensJsx

open JS

/-- The expression child of `h2.balance` (line 21):
the value of `stakedBalance && displayAmount(stakedBalance)` with the template literal
around the call; `displayAmount` stands for the imported helper followed by the string
conversion of the template literal. -/
def balanceChild (displayAmount : Value → Str) (stakedBalance : Value) : Value :=
  logicalAnd stakedBalance (fun _ => .string (displayAmount stakedBalance))

/-- Text rendered inside `h2.balance` (lines 20-22). -/
def balanceText (displayAmount : Value → Str) (stakedBalance : Value) : Option Str :=
  renderChild (balanceChild displayAmount stakedBalance)

end DelegatedTokensJsx

namespace Examples

open JS

/-- The beneficiary of the specification's example, `0xAAAA...` (20 bytes). -/
def beneficiaryA : Str := "0xAAAAAAAAAAAAAAAAAAAAAAAAAAAAAAAAAAAAAAAA".toList

/-- The operator of the specification's example, `0xBBBB...` (20 bytes). -/
def operatorB : Str := "0xBBBBBBBBBBBBBBBBBBBBBBBBBBBBBBBBBBBBBBBB".toList

/-- The authorizer of the specification's example, `0xCCCC...` (20 bytes). -/
def authorizerC : Str := "0xCCCCCCCCCCCCCCCCCCCCCCCCCCCCCCCCCCCCCCCC".toList

/-- A beneficiary string with one hex digit too many (41 digits). -/
def beneficiary41 : Str := "0xAAAAAAAAAAAAAAAAAAAAAAAAAAAAAAAAAAAAAAAAA".toList

/-- A beneficiary string two hex digits short (38 digits). -/
def beneficiary38 : Str := "0xAAAAAAAAAAAAAAAAAAAAAAAAAAAAAAAAAAAAAA".toList

/-- An account object standing for `owner`. -/
def owner : Value := .string "0x923C5Dbf353e99394A21Aa7B67F3327Ca111C67D".toList

/-- A stake amount. -/
def stake : Value := .number 200

/-- A token whose `approve` promise is rejected with an error object (as a reverted
transaction does). -/
def rejectingToken : StakeDelegateJs.Token := ⟨.string "0xTOKEN".toList, fun _ _ _ => .throw (.object 1)⟩

/-- A token whose `approve` promise is fulfilled with `false`. -/
def refusingToken : StakeDelegateJs.Token :=
  ⟨.string "0xTOKEN".toList, fun _ _ _ => .normal (.boolean false)⟩

/-- A token whose `approve` promise is fulfilled with a receipt object. -/
def approvingToken : StakeDelegateJs.Token :=
  ⟨.string "0xTOKEN".toList, fun _ _ _ => .normal (.object 2)⟩

/-- A staking contract whose `receiveApproval` promise is fulfilled with a receipt object. -/
def stakingContract : StakeDelegateJs.StakingContract :=
  ⟨.string "0xSTAKING".toList, fun _ _ _ _ _ => .normal (.object 3)⟩

/-- Artifacts with fixed contract addresses. -/
def artifacts : StakeAccountsJs.Artifacts :=
  ⟨.string "0xSTAKING".toList, "0xOPERATORCONTRACT".toList⟩

/-- The authorization of the fourth operator (transaction 9) is rejected, all others are
fulfilled. -/
def oneRejected : Nat → StakeAccountsJs.Outcome :=
  fun i => if i = 9 then .rejected (.object 4) else .fulfilled

/-- The six authorizations settle in one turn, then the six staking transactions in
another, then the event loop runs empty. -/
def authorizationsFirst : List StakeAccountsJs.Event :=
  [.settled [6, 7, 8, 9, 10, 11], .settled [0, 1, 2, 3, 4, 5], .idle]

/-- The staking transactions of the first two operators are rejected, every other
transaction is fulfilled. -/
def twoRejected : Nat → StakeAccountsJs.Outcome :=
  fun i => if i = 0 then .rejected (.object 100)
    else if i = 1 then .rejected (.object 101) else .fulfilled

/-- The twelve transactions settle one per turn, in the order they were sent. -/
def onePerTurn : List StakeAccountsJs.Event :=
  (List.range 12).map (fun i => .settled [i])

end Examples

/-! Theorems. -/

namespace JS

theorem unhex_lt {c : Char} {x : Nat} (h : unhex c = some x) : x < 16 := by
  unfold unhex at h
  simp only at h
  split_ifs at h <;> simp at h <;> omega

theorem unhex_digitChar (d : Nat) (h : d < 16) : unhex (Nat.digitChar d) = some d := by
  interval_cases d <;> decide

theorem isHexDigit_iff {c : Char} : isHexDigit c = true ↔ ∃ x, unhex c = some x := by
  simp [isHexDigit, Option.isSome_iff_exists]

theorem fromHex_length : ∀ (s : Str), s.all isHexDigit = true →
    (Buffer.fromHex s).length = s.length / 2
  | [], _ => by simp [Buffer.fromHex]
  | [_], _ => by simp [Buffer.fromHex]
  | a :: b :: rest, h => by
    simp only [List.all_cons, Bool.and_eq_true] at h
    obtain ⟨ha, hb, hr⟩ := h
    obtain ⟨x, hx⟩ := isHexDigit_iff.mp ha
    obtain ⟨y, hy⟩ := isHexDigit_iff.mp hb
    simp only [Buffer.fromHex, hx, hy, List.length_cons, fromHex_length rest hr]
    omega

theorem fromHex_lt : ∀ (s : Str) (b : Nat), b ∈ Buffer.fromHex s → b < 256
  | [], b, h => by simp [Buffer.fromHex] at h
  | [_], b, h => by simp [Buffer.fromHex] at h
  | c :: d :: rest, b, h => by
    unfold Buffer.fromHex at h
    split at h
    · rename_i hi lo hhi hlo
      rcases List.mem_cons.mp h with h | h
      · have := unhex_lt hhi
        have := unhex_lt hlo
        omega
      · exact fromHex_lt rest b h
    · simp at h

theorem fromHex_toHex : ∀ (bs : Buffer), (∀ b ∈ bs, b < 256) →
    Buffer.fromHex (Buffer.toHex bs) = bs
  | [], _ => by simp [Buffer.toHex, Buffer.fromHex]
  | b :: rest, h => by
    have hb : b < 256 := h b (List.mem_cons_self _ _)
    have h1 : unhex (Nat.digitChar (b / 16)) = some (b / 16) := unhex_digitChar _ (by omega)
    have h2 : unhex (Nat.digitChar (b % 16)) = some (b % 16) := unhex_digitChar _ (by omega)
    simp only [Buffer.toHex, Buffer.fromHex, h1, h2]
    rw [fromHex_toHex rest (fun x hx => h x (List.mem_cons_of_mem _ hx))]
    congr 1
    omega

theorem digitChar_lowercase (d : Nat) (h : d < 16) :
    Nat.digitChar d ∈ "0123456789abcdef".toList := by
  interval_cases d <;> decide

theorem toHex_lowercase : ∀ (bs : Buffer), (∀ b ∈ bs, b < 256) →
    ∀ c ∈ Buffer.toHex bs, c ∈ "0123456789abcdef".toList
  | [], _, c, hc => by simp [Buffer.toHex] at hc
  | b :: rest, h, c, hc => by
    have hb : b < 256 := h b (List.mem_cons_self _ _)
    simp only [Buffer.toHex, List.mem_cons] at hc
    rcases hc with hc | hc | hc
    · rw [hc]
      exact digitChar_lowercase _ (by omega)
    · rw [hc]
      exact digitChar_lowercase _ (by omega)
    · exact toHex_lowercase rest (fun x hx => h x (List.mem_cons_of_mem _ hx)) c hc

theorem isHexString_iff {n : Nat} {s : Str} : isHexString n s = true ↔
    s.take 2 = ['0', 'x'] ∧ (s.drop 2).length = n ∧ (s.drop 2).all isHexDigit = true := by
  simp [isHexString, and_assoc]

theorem toHex_length : ∀ (bs : Buffer), (Buffer.toHex bs).length = 2 * bs.length
  | [] => by simp [Buffer.toHex]
  | b :: rest => by
    simp only [Buffer.toHex, List.length_cons, toHex_length rest]
    omega

end JS

namespace Spec
open JS

theorem char_le_iff (c d : Char) : c ≤ d ↔ c.toNat ≤ d.toNat := by
  rw [Char.le_def]
  exact Iff.rfl

theorem hexValue_of_unhex {c : Char} {x : Nat} (h : unhex c = some x) : hexValue c = x := by
  unfold unhex at h
  unfold hexValue
  have e0 : ('0' : Char).toNat = 48 := by decide
  have ea : ('a' : Char).toNat = 97 := by decide
  have eA : ('A' : Char).toNat = 65 := by decide
  have ef : ('f' : Char).toNat = 102 := by decide
  have eF : ('F' : Char).toNat = 70 := by decide
  have hd : c.isDigit = true ↔ 48 ≤ c.toNat ∧ c.toNat ≤ 57 := by
    simp only [Char.isDigit, Bool.and_eq_true, decide_eq_true_eq, ge_iff_le]
    exact Iff.rfl
  simp only [char_le_iff, e0, ea, eA, ef, eF, hd]
  simp only at h
  split_ifs at h ⊢ <;> simp at h <;> omega

/-- The pairwise reading of a digit string used by `decode`. -/
theorem fromHex_eq_pairs : ∀ (s : Str), s.all isHexDigit = true →
    Buffer.fromHex s = (List.range (s.length / 2)).map
      (fun i => 16 * hexValue (s.getD (2 * i) '0') + hexValue (s.getD (2 * i + 1) '0'))
  | [], _ => by simp [Buffer.fromHex]
  | [_], _ => by simp [Buffer.fromHex]
  | a :: b :: rest, h => by
    simp only [List.all_cons, Bool.and_eq_true] at h
    obtain ⟨ha, hb, hr⟩ := h
    obtain ⟨x, hx⟩ := isHexDigit_iff.mp ha
    obtain ⟨y, hy⟩ := isHexDigit_iff.mp hb
    have hlen : (a :: b :: rest).length / 2 = rest.length / 2 + 1 := by
      simp only [List.length_cons]
      omega
    rw [hlen, List.range_succ_eq_map, List.map_cons, List.map_map]
    simp only [Buffer.fromHex, hx, hy, fromHex_eq_pairs rest hr]
    have e0 : (a :: b :: rest).getD (2 * 0) '0' = a := rfl
    have e1 : (a :: b :: rest).getD (2 * 0 + 1) '0' = b := rfl
    rw [e0, e1, hexValue_of_unhex hx, hexValue_of_unhex hy]
    rfl

end Spec

namespace StakeDelegateJs
open JS

theorem delegation_eq (operator beneficiary authorizer : Str) :
    delegation operator beneficiary authorizer =
      Buffer.fromHex (beneficiary.drop 2) ++ Buffer.fromHex (operator.drop 2) ++
        Buffer.fromHex (authorizer.drop 2) := by
  simp [delegation, Buffer.concat, substr]

theorem decode_eq_fromHex {n : Nat} {s : Str} (h : isHexString n s = true) :
    Spec.decode s = Buffer.fromHex (s.drop 2) ∧ (Buffer.fromHex (s.drop 2)).length = n / 2 := by
  obtain ⟨_, hlen, hall⟩ := isHexString_iff.mp h
  refine ⟨?_, ?_⟩
  · rw [Spec.fromHex_eq_pairs _ hall]
    rfl
  · rw [fromHex_length _ hall, hlen]

/-- C1: for valid 20-byte hex addresses the payload built by `stakeDelegate` is exactly 60
bytes long and equals `decode(B) || decode(O) || decode(A)`: bytes 0..19 are the decoded
beneficiary, bytes 20..39 the decoded operator, bytes 40..59 the decoded authorizer, each
part being 20 bytes, with nothing in between. -/
theorem delegation_layout (beneficiary operator authorizer : Str)
    (hB : isAddress beneficiary = true) (hO : isAddress operator = true)
    (hA : isAddress authorizer = true) :
    (delegation operator beneficiary authorizer).length = 60 ∧
    delegation operator beneficiary authorizer =
      Spec.decode beneficiary ++ Spec.decode operator ++ Spec.decode authorizer ∧
    (Spec.decode beneficiary).length = 20 ∧ (Spec.decode operator).length = 20 ∧
    (Spec.decode authorizer).length = 20 ∧
    (delegation operator beneficiary authorizer).take 20 = Spec.decode beneficiary ∧
    ((delegation operator beneficiary authorizer).drop 20).take 20 = Spec.decode operator ∧
    (delegation operator beneficiary authorizer).drop 40 = Spec.decode authorizer := by
  obtain ⟨eB, lB⟩ := decode_eq_fromHex hB
  obtain ⟨eO, lO⟩ := decode_eq_fromHex hO
  obtain ⟨eA, lA⟩ := decode_eq_fromHex hA
  rw [delegation_eq, ← eB, ← eO, ← eA]
  rw [← eB] at lB
  rw [← eO] at lO
  rw [← eA] at lA
  have lB20 : (Spec.decode beneficiary).length = 20 := lB
  have lO20 : (Spec.decode operator).length = 20 := lO
  have lA20 : (Spec.decode authorizer).length = 20 := lA
  refine ⟨by simp [lB20, lO20, lA20], rfl, lB20, lO20, lA20, ?_, ?_, ?_⟩
  · rw [List.append_assoc, List.take_left' lB20]
  · rw [List.append_assoc, List.drop_left' lB20, List.take_left' lO20]
  · have h40 : (Spec.decode beneficiary ++ Spec.decode operator).length = 40 := by
      simp [lB20, lO20]
    rw [List.drop_left' h40]

/-- Witness of `delegation_layout`: the example of the specification. -/
theorem delegation_layout_witness :
    isAddress Examples.beneficiaryA = true ∧ isAddress Examples.operatorB = true ∧
    isAddress Examples.authorizerC = true ∧
    (delegation Examples.operatorB Examples.beneficiaryA Examples.authorizerC).length = 60 :=
  ⟨by decide, by decide, by decide,
    (delegation_layout Examples.beneficiaryA Examples.operatorB Examples.authorizerC
      (by decide) (by decide) (by decide)).1⟩

theorem calls_eq (stakingContract : StakingContract)
    (token : Token) (owner : Value) (operator beneficiary authorizer : Str) (stake : Value) :
    (stakeDelegate stakingContract token owner operator beneficiary authorizer stake).calls
      = (if approvalObserved (token.approve stakingContract.address stake owner) then
          [Call.approve stakingContract.address stake owner,
            Call.receiveApproval owner stake token.address
              (delegation operator beneficiary authorizer) owner]
        else [Call.approve stakingContract.address stake owner]) := by
  unfold stakeDelegate
  cases h : token.approve stakingContract.address stake owner with
  | throw e => simp [approvalObserved]
  | normal v => by_cases hv : toBoolean v = true <;> simp [approvalObserved, hv]

/-- C2: in every run of `stakeDelegate` the first call is
`token.approve(stakingContract.address, stake, {from: owner})`; when the approval is not
observed as successful (rejected, or fulfilled with a falsy value) that is the only call
and the number of `receiveApproval` calls is zero; when it is observed as successful
exactly one `receiveApproval` call follows, with arguments
`(owner, stake, token.address, payload, {from: owner})`. -/
theorem receiveApproval_only_after_approval (stakingContract : StakingContract)
    (token : Token) (owner : Value) (operator beneficiary authorizer : Str) (stake : Value) :
    (stakeDelegate stakingContract token owner operator beneficiary authorizer stake).calls.head?
      = some (Call.approve stakingContract.address stake owner) ∧
    (stakeDelegate stakingContract token owner operator beneficiary authorizer stake).calls
      = (if approvalObserved (token.approve stakingContract.address stake owner) then
          [Call.approve stakingContract.address stake owner,
            Call.receiveApproval owner stake token.address
              (delegation operator beneficiary authorizer) owner]
        else [Call.approve stakingContract.address stake owner]) ∧
    (stakeDelegate stakingContract token owner operator beneficiary authorizer
        stake).calls.countP Call.isReceiveApproval
      = (if approvalObserved (token.approve stakingContract.address stake owner) then 1
        else 0) := by
  unfold stakeDelegate
  cases h : token.approve stakingContract.address stake owner with
  | throw e => simp [approvalObserved, Call.isReceiveApproval]
  | normal v =>
    by_cases hv : toBoolean v = true
    · simp [approvalObserved, hv, Call.isReceiveApproval]
    · simp [approvalObserved, hv, Call.isReceiveApproval]

/-- C3 (as stated, refuted): when the `approve` promise is rejected the helper does not
return `false`; the rejection propagates to the caller. -/
theorem approval_rejection_propagates :
    approvalObserved (Examples.rejectingToken.approve Examples.stakingContract.address
      Examples.stake Examples.owner) = false ∧
    (stakeDelegate Examples.stakingContract Examples.rejectingToken Examples.owner
      Examples.operatorB Examples.beneficiaryA Examples.authorizerC Examples.stake).result
      = Completion.throw (.object 1) ∧
    (stakeDelegate Examples.stakingContract Examples.rejectingToken Examples.owner
      Examples.operatorB Examples.beneficiaryA Examples.authorizerC Examples.stake).result
      ≠ Completion.normal (.boolean false) := by
  decide

/-- C3 (amended): when the approval is not observed as successful, `receiveApproval` is not
called and either the `approve` promise was fulfilled with a falsy value, in which case the
helper returns `false` normally, or it was rejected, in which case the same error is
rethrown to the caller. -/
theorem approval_failure_result (stakingContract : StakingContract)
    (token : Token) (owner : Value) (operator beneficiary authorizer : Str) (stake : Value)
    (h : approvalObserved (token.approve stakingContract.address stake owner) = false) :
    (stakeDelegate stakingContract token owner operator beneficiary authorizer
        stake).calls.countP Call.isReceiveApproval = 0 ∧
    ((∃ v, token.approve stakingContract.address stake owner = .normal v ∧
        toBoolean v = false ∧
        (stakeDelegate stakingContract token owner operator beneficiary authorizer
          stake).result = .normal (.boolean false)) ∨
     (∃ e, token.approve stakingContract.address stake owner = .throw e ∧
        (stakeDelegate stakingContract token owner operator beneficiary authorizer
          stake).result = .throw e)) := by
  unfold stakeDelegate
  cases h' : token.approve stakingContract.address stake owner with
  | throw e => simp [Call.isReceiveApproval]
  | normal v =>
    rw [h'] at h
    simp only [approvalObserved] at h
    simp [h, Call.isReceiveApproval]

/-- Witness of `approval_failure_result`: a token whose approval is fulfilled with `false`. -/
theorem approval_failure_result_witness :
    approvalObserved (Examples.refusingToken.approve Examples.stakingContract.address
      Examples.stake Examples.owner) = false ∧
    (stakeDelegate Examples.stakingContract Examples.refusingToken Examples.owner
        Examples.operatorB Examples.beneficiaryA Examples.authorizerC
        Examples.stake).calls.countP Call.isReceiveApproval = 0 :=
  ⟨by decide,
    (approval_failure_result Examples.stakingContract Examples.refusingToken Examples.owner
      Examples.operatorB Examples.beneficiaryA Examples.authorizerC Examples.stake
      (by decide)).1⟩

theorem delegation_length_hex {nB nO nA : Nat} {operator beneficiary authorizer : Str}
    (hB : isHexString nB beneficiary = true) (hO : isHexString nO operator = true)
    (hA : isHexString nA authorizer = true) :
    (delegation operator beneficiary authorizer).length = nB / 2 + nO / 2 + nA / 2 := by
  rw [delegation_eq, List.length_append, List.length_append, (decode_eq_fromHex hB).2,
    (decode_eq_fromHex hO).2, (decode_eq_fromHex hA).2]

/-- C9 (as stated, refuted): a beneficiary whose hex part is 41 digits long, next to a
valid operator and a valid authorizer, still gives a payload of exactly 60 bytes, because
the trailing digit is dropped by the hex decoding. -/
theorem odd_length_address_gives_60_bytes :
    isHexString 41 Examples.beneficiary41 = true ∧
    isAddress Examples.beneficiary41 = false ∧
    isAddress Examples.operatorB = true ∧ isAddress Examples.authorizerC = true ∧
    (delegation Examples.operatorB Examples.beneficiary41 Examples.authorizerC).length
      = 60 := by
  decide

/-- C9 (amended): `stakeDelegate` validates nothing. For any three address strings the
approve call is issued first, the helper's outcome is decided by the two contract calls
alone, and the payload length is the sum of the three decoded lengths, an `n`-digit hex
part decoding to `n / 2` bytes (rounded down). Hence when one address has a hex part of
`n` digits and the other two are valid addresses, the payload has `40 + n / 2` bytes, which
differs from 60 exactly when `n < 40` or `n > 41`; and whatever its length, the payload is
the one passed to `receiveApproval` when the approval succeeds. -/
theorem stakeDelegate_no_validation (stakingContract : StakingContract)
    (token : Token) (owner : Value) (operator beneficiary authorizer : Str) (stake : Value) :
    (stakeDelegate stakingContract token owner operator beneficiary authorizer stake).calls.head?
      = some (Call.approve stakingContract.address stake owner) ∧
    (stakeDelegate stakingContract token owner operator beneficiary authorizer stake).result
      = (match token.approve stakingContract.address stake owner with
        | .throw e => .throw e
        | .normal v =>
          if toBoolean v then
            stakingContract.receiveApproval owner stake token.address
              (delegation operator beneficiary authorizer) owner
          else .normal (.boolean false)) ∧
    (delegation operator beneficiary authorizer).length
      = (Buffer.fromHex (substr beneficiary 2)).length
        + (Buffer.fromHex (substr operator 2)).length
        + (Buffer.fromHex (substr authorizer 2)).length ∧
    (∀ nB nO nA, isHexString nB beneficiary = true → isHexString nO operator = true →
      isHexString nA authorizer = true →
      (delegation operator beneficiary authorizer).length = nB / 2 + nO / 2 + nA / 2) ∧
    (∀ n, isHexString n beneficiary = true → isAddress operator = true →
      isAddress authorizer = true →
      ((delegation operator beneficiary authorizer).length ≠ 60 ↔ (n < 40 ∨ 41 < n))) ∧
    (∀ n, isAddress beneficiary = true → isHexString n operator = true →
      isAddress authorizer = true →
      ((delegation operator beneficiary authorizer).length ≠ 60 ↔ (n < 40 ∨ 41 < n))) ∧
    (∀ n, isAddress beneficiary = true → isAddress operator = true →
      isHexString n authorizer = true →
      ((delegation operator beneficiary authorizer).length ≠ 60 ↔ (n < 40 ∨ 41 < n))) ∧
    (approvalObserved (token.approve stakingContract.address stake owner) = true →
      (stakeDelegate stakingContract token owner operator beneficiary authorizer stake).calls
        = [Call.approve stakingContract.address stake owner,
            Call.receiveApproval owner stake token.address
              (delegation operator beneficiary authorizer) owner]) := by
  refine ⟨?_, ?_, ?_, ?_, ?_, ?_, ?_, ?_⟩
  · rw [calls_eq]
    split <;> rfl
  · unfold stakeDelegate
    cases token.approve stakingContract.address stake owner with
    | throw e => rfl
    | normal v => by_cases hv : toBoolean v = true <;> simp [hv]
  · simp only [delegation_eq, substr, List.length_append]
  · intro nB nO nA hB hO hA
    exact delegation_length_hex hB hO hA
  · intro n hB hO hA
    rw [delegation_length_hex hB hO hA]
    omega
  · intro n hB hO hA
    rw [delegation_length_hex hB hO hA]
    omega
  · intro n hB hO hA
    rw [delegation_length_hex hB hO hA]
    omega
  · intro h
    rw [calls_eq, if_pos h]

/-- Witness of `stakeDelegate_no_validation`: a beneficiary two digits short gives a
59-byte payload, which reaches `receiveApproval` unchanged. -/
theorem stakeDelegate_no_validation_witness :
    isHexString 38 Examples.beneficiary38 = true ∧
    (delegation Examples.operatorB Examples.beneficiary38 Examples.authorizerC).length ≠ 60 ∧
    (stakeDelegate Examples.stakingContract Examples.approvingToken Examples.owner
      Examples.operatorB Examples.beneficiary38 Examples.authorizerC Examples.stake).calls
      = [Call.approve Examples.stakingContract.address Examples.stake Examples.owner,
          Call.receiveApproval Examples.owner Examples.stake Examples.approvingToken.address
            (delegation Examples.operatorB Examples.beneficiary38 Examples.authorizerC)
            Examples.owner] :=
  have h := stakeDelegate_no_validation Examples.stakingContract Examples.approvingToken
    Examples.owner Examples.operatorB Examples.beneficiary38 Examples.authorizerC
    Examples.stake
  ⟨by decide,
    (h.2.2.2.2.1 38 (by decide) (by decide) (by decide)).mpr (Or.inl (by decide)),
    h.2.2.2.2.2.2.2 (by decide)⟩

end StakeDelegateJs

namespace StakeAccountsJs
open JS

theorem delegation_bytes_lt (operator beneficiary authorizer : Str) :
    ∀ b ∈ StakeDelegateJs.delegation operator beneficiary authorizer, b < 256 := by
  intro b hb
  rw [StakeDelegateJs.delegation_eq] at hb
  simp only [List.mem_append] at hb
  rcases hb with (hb | hb) | hb <;> exact fromHex_lt _ b hb

/-- C4: the script and the test helper build the same payload. For valid addresses `O`
(operator) and `C` (contract owner), in any letter case, the delegation string of
`stakeOperatorAccount(O, C)` is `0x` followed by the lowercase hex rendering of the 60-byte
payload that `stakeDelegate` builds for beneficiary `C`, operator `O`, authorizer `C`; it
is 122 characters long, it is what the script passes to `approveAndCall`, and decoding it
as the helper would gives that payload back. -/
theorem delegation_string_matches_payload (artifacts : Artifacts)
    (operatorAddress contractOwnerAddress : Str)
    (hO : isAddress operatorAddress = true) (hC : isAddress contractOwnerAddress = true) :
    delegation operatorAddress contractOwnerAddress
      = '0' :: 'x' :: Buffer.toHex
          (StakeDelegateJs.delegation operatorAddress contractOwnerAddress
            contractOwnerAddress) ∧
    (StakeDelegateJs.delegation operatorAddress contractOwnerAddress
      contractOwnerAddress).length = 60 ∧
    (delegation operatorAddress contractOwnerAddress).length = 122 ∧
    (∀ c ∈ (delegation operatorAddress contractOwnerAddress).drop 2,
      c ∈ "0123456789abcdef".toList) ∧
    Buffer.fromHex (substr (delegation operatorAddress contractOwnerAddress) 2)
      = StakeDelegateJs.delegation operatorAddress contractOwnerAddress
          contractOwnerAddress ∧
    (stakeOperatorAccount artifacts operatorAddress contractOwnerAddress).tx
      = Tx.approveAndCall artifacts.tokenStakingContract_address (formatAmount 20000000 18)
          ('0' :: 'x' :: Buffer.toHex
            (StakeDelegateJs.delegation operatorAddress contractOwnerAddress
              contractOwnerAddress))
          contractOwnerAddress := by
  have e : delegation operatorAddress contractOwnerAddress
      = '0' :: 'x' :: Buffer.toHex
          (StakeDelegateJs.delegation operatorAddress contractOwnerAddress
            contractOwnerAddress) := rfl
  have h60 : (StakeDelegateJs.delegation operatorAddress contractOwnerAddress
      contractOwnerAddress).length = 60 :=
    StakeDelegateJs.delegation_length_hex hC hO hC
  have hlt := delegation_bytes_lt operatorAddress contractOwnerAddress contractOwnerAddress
  refine ⟨e, h60, ?_, ?_, ?_, ?_⟩
  · rw [e, List.length_cons, List.length_cons, toHex_length, h60]
  · rw [e]
    exact toHex_lowercase _ hlt
  · rw [e]
    exact fromHex_toHex _ hlt
  · rfl

/-- Witness of `delegation_string_matches_payload`: the first operator of the script and the
contract owner. -/
theorem delegation_string_matches_payload_witness :
    isAddress "0x1833a1a046db585d9c405ad93bfce085d43b2b04".toList = true ∧
    isAddress contractOwnerAddress = true ∧
    (delegation "0x1833a1a046db585d9c405ad93bfce085d43b2b04".toList
      contractOwnerAddress).length = 122 :=
  ⟨by decide, by decide,
    (delegation_string_matches_payload Examples.artifacts
      "0x1833a1a046db585d9c405ad93bfce085d43b2b04".toList contractOwnerAddress
      (by decide) (by decide)).2.2.1⟩

theorem lookup_of_mem_keys {i : Nat} :
    ∀ (l : List (Nat × Str)), i ∈ l.map Prod.fst → ∃ m, l.lookup i = some m
  | [], h => by simp at h
  | (k, m) :: rest, h => by
    by_cases hk : i = k
    · exact ⟨m, by simp [List.lookup, hk]⟩
    · have hne : (i == k) = false := by simpa using hk
      simp only [List.map_cons, List.mem_cons] at h
      rcases h with h | h
      · exact absurd h hk
      · obtain ⟨m', hm'⟩ := lookup_of_mem_keys rest h
        exact ⟨m', by simp [List.lookup, hne, hm']⟩

theorem resume_frame (outcome : Nat → Outcome) (s : Process × List Value) (i : Nat) :
    (Process.resume outcome s i).1.sent = s.1.sent ∧
    (Process.resume outcome s i).1.exited = s.1.exited ∧
    (Process.resume outcome s i).1.stderr = s.1.stderr := by
  unfold Process.resume
  split
  · exact ⟨rfl, rfl, rfl⟩
  · split <;> exact ⟨rfl, rfl, rfl⟩

theorem foldl_resume_frame (outcome : Nat → Outcome) :
    ∀ (batch : List Nat) (s : Process × List Value),
      (batch.foldl (Process.resume outcome) s).1.sent = s.1.sent ∧
      (batch.foldl (Process.resume outcome) s).1.exited = s.1.exited ∧
      (batch.foldl (Process.resume outcome) s).1.stderr = s.1.stderr
  | [], _ => ⟨rfl, rfl, rfl⟩
  | i :: rest, s => by
    obtain ⟨h1, h2, h3⟩ := foldl_resume_frame outcome rest (Process.resume outcome s i)
    obtain ⟨r1, r2, r3⟩ := resume_frame outcome s i
    rw [List.foldl_cons]
    exact ⟨h1.trans r1, h2.trans r2, h3.trans r3⟩

theorem filterMap_cons_toList {α β : Type} (f : α → Option β) (a : α) (l : List α) :
    (a :: l).filterMap f = (f a).toList ++ l.filterMap f := by
  cases h : f a <;> simp [List.filterMap_cons, h]

/-- Resuming the calls that await the transactions of a batch: exactly these calls leave
the suspended ones, and the queued handlers are the errors of the rejected transactions,
in batch order. -/
theorem foldl_resume_spec (outcome : Nat → Outcome) :
    ∀ (batch : List Nat) (s : Process × List Value), batch.Nodup →
      (∀ i ∈ batch, i ∈ s.1.pending.map Prod.fst) →
      (batch.foldl (Process.resume outcome) s).1.pending
        = s.1.pending.filter (fun q => !batch.contains q.1) ∧
      (batch.foldl (Process.resume outcome) s).2
        = s.2 ++ batch.filterMap (fun i => (outcome i).error?)
  | [], s, _, _ => by simp
  | i :: rest, s, hnd, hmem => by
    obtain ⟨m, hm⟩ := lookup_of_mem_keys s.1.pending (hmem i (List.mem_cons_self _ _))
    have hi : i ∉ rest := (List.nodup_cons.mp hnd).1
    have hrest : rest.Nodup := (List.nodup_cons.mp hnd).2
    have hs : (Process.resume outcome s i).1.pending
          = s.1.pending.filter (fun q => q.1 != i) ∧
        (Process.resume outcome s i).2 = s.2 ++ ((outcome i).error?).toList := by
      unfold Process.resume
      rw [hm]
      cases outcome i <;> simp [Outcome.error?]
    have hmem' : ∀ j ∈ rest, j ∈ (Process.resume outcome s i).1.pending.map Prod.fst := by
      intro j hj
      have hji : j ≠ i := fun h => hi (h ▸ hj)
      have := hmem j (List.mem_cons_of_mem _ hj)
      rw [hs.1]
      simp only [List.mem_map, List.mem_filter] at this ⊢
      obtain ⟨q, hq, hqj⟩ := this
      exact ⟨q, ⟨hq, by simpa [hqj] using hji⟩, hqj⟩
    obtain ⟨ih1, ih2⟩ := foldl_resume_spec outcome rest (Process.resume outcome s i) hrest hmem'
    rw [List.foldl_cons]
    refine ⟨?_, ?_⟩
    · rw [ih1, hs.1, List.filter_filter]
      apply List.filter_congr
      intro q _
      by_cases hq : q.1 = i <;> simp [hq, Bool.and_comm]
    · rw [ih2, hs.2, List.append_assoc, filterMap_cons_toList]

theorem filterMap_error_head (outcome : Nat → Outcome) :
    ∀ (batch : List Nat),
      (batch.filterMap (fun i => (outcome i).error?)).head?
        = (match batch.find? (fun i => (outcome i).isRejected) with
          | some r => (outcome r).error?
          | none => none)
  | [] => rfl
  | i :: rest => by
    have ih := filterMap_error_head outcome rest
    cases ho : outcome i with
    | rejected e => simp [List.filterMap_cons, List.find?, ho, Outcome.error?, Outcome.isRejected]
    | fulfilled =>
      simp only [List.filterMap_cons, List.find?, ho, Outcome.error?, Outcome.isRejected]
      exact ih

theorem find_rejected (outcome : Nat → Outcome) (batch : List Nat) :
    (batch.any (fun i => (outcome i).isRejected) = true →
      ∃ r e, batch.find? (fun i => (outcome i).isRejected) = some r ∧
        (outcome r).error? = some e) ∧
    (batch.any (fun i => (outcome i).isRejected) = false →
      batch.find? (fun i => (outcome i).isRejected) = none) := by
  refine ⟨fun h => ?_, fun h => ?_⟩
  · cases hf : batch.find? (fun i => (outcome i).isRejected) with
    | none =>
      rw [List.find?_eq_none] at hf
      obtain ⟨i, hi, hr⟩ := List.any_eq_true.mp h
      exact absurd hr (hf i hi)
    | some r =>
      have hr : (outcome r).isRejected = true := by
        have := List.find?_some hf
        simpa using this
      cases ho : outcome r with
      | rejected e => exact ⟨r, e, rfl, by rw [ho]; rfl⟩
      | fulfilled => rw [ho] at hr; exact absurd hr (by decide)
  · rw [List.find?_eq_none]
    intro i hi
    have := List.any_eq_false.mp h i hi
    simpa using this

/-- One turn: the transactions of the batch stop being awaited; if one of them is rejected
the first such error is written to standard error and the process exits with code 1,
otherwise the process keeps running and nothing is written to standard error. -/
theorem turn_spec (outcome : Nat → Outcome) (p : Process) (batch : List Nat)
    (hp : p.exited = none) (hnd : batch.Nodup)
    (hmem : ∀ i ∈ batch, i ∈ p.pending.map Prod.fst) :
    (p.turn outcome batch).exited
      = (if batch.any (fun i => (outcome i).isRejected) then some 1 else none) ∧
    (p.turn outcome batch).stderr
      = p.stderr ++ (match batch.find? (fun i => (outcome i).isRejected) with
          | some r => (outcome r).error?
          | none => none).toList ∧
    (p.turn outcome batch).pending = p.pending.filter (fun q => !batch.contains q.1) := by
  obtain ⟨_, f2, f3⟩ := foldl_resume_frame outcome batch (p, [])
  obtain ⟨g1, g2⟩ := foldl_resume_spec outcome batch (p, []) hnd hmem
  have hh := filterMap_error_head outcome batch
  simp only [List.nil_append] at g2
  rw [← g2] at hh
  unfold Process.turn
  rw [hp]
  simp only
  generalize batch.foldl (Process.resume outcome) (p, []) = res at f2 f3 g1 g2 hh
  obtain ⟨q, hs⟩ := res
  simp only at f2 f3 g1 hh ⊢
  by_cases hany : batch.any (fun i => (outcome i).isRejected) = true
  · obtain ⟨r, e, hr, he⟩ := (find_rejected outcome batch).1 hany
    rw [hr] at hh
    simp only [he] at hh
    cases hs with
    | nil => simp at hh
    | cons error more =>
      simp only [List.head?_cons, Option.some.injEq] at hh
      subst hh
      simp only [hany, hr, he, if_true]
      refine ⟨trivial, ?_, g1⟩
      rw [f3]
      rfl
  · have hany' : batch.any (fun i => (outcome i).isRejected) = false := by simpa using hany
    have hr := (find_rejected outcome batch).2 hany'
    rw [hr] at hh
    cases hs with
    | nil =>
      simp only [hany', hr]
      exact ⟨by rw [f2, hp]; rfl, by rw [f3]; simp, g1⟩
    | cons error more => simp at hh

theorem turn_sent (outcome : Nat → Outcome) (p : Process) (batch : List Nat) :
    (p.turn outcome batch).sent = p.sent := by
  have f1 := (foldl_resume_frame outcome batch (p, [])).1
  unfold Process.turn
  split
  · rfl
  · split
    · rename_i q hq
      rw [hq] at f1
      exact f1
    · rename_i q error more hq
      rw [hq] at f1
      exact f1

theorem step_sent (outcome : Nat → Outcome) (p : Process) (ev : Event) :
    (p.step outcome ev).sent = p.sent := by
  cases ev with
  | settled batch => exact turn_sent outcome p batch
  | idle =>
    show p.idle.sent = p.sent
    unfold Process.idle
    split <;> rfl

theorem foldl_step_sent (outcome : Nat → Outcome) :
    ∀ (events : List Event) (p : Process),
      (events.foldl (Process.step outcome) p).sent = p.sent
  | [], _ => rfl
  | ev :: rest, p => by
    rw [List.foldl_cons, foldl_step_sent outcome rest, step_sent]

theorem step_ended (outcome : Nat → Outcome) (p : Process) (ev : Event) (code : Nat)
    (h : p.exited = some code) : p.step outcome ev = p := by
  cases ev with
  | settled batch =>
    show p.turn outcome batch = p
    unfold Process.turn
    rw [h]
  | idle =>
    show p.idle = p
    unfold Process.idle
    rw [h]

/-- A process that has ended processes nothing more. -/
theorem foldl_step_ended (outcome : Nat → Outcome) :
    ∀ (events : List Event) (p : Process) (code : Nat), p.exited = some code →
      events.foldl (Process.step outcome) p = p
  | [], _, _, _ => rfl
  | ev :: rest, p, code, h => by
    rw [List.foldl_cons, step_ended outcome p ev code h]
    exact foldl_step_ended outcome rest p code h

/-- The outcome of a list of events, from a running process that awaits each of the
transactions concerned. -/
theorem foldl_step_spec (outcome : Nat → Outcome) :
    ∀ (events : List Event) (p : Process), p.exited = none →
      (settledTxs events).Nodup →
      (∀ i ∈ settledTxs events, i ∈ p.pending.map Prod.fst) →
      (events.foldl (Process.step outcome) p).exited = verdict outcome events ∧
      (events.foldl (Process.step outcome) p).stderr
        = p.stderr ++ (firstError outcome events).toList
  | [], p, hp, _, _ => by simp [verdict, firstError, hp]
  | .idle :: rest, p, hp, _, _ => by
    have hi : p.idle.exited = some 0 ∧ p.idle.stderr = p.stderr := by
      unfold Process.idle
      rw [hp]
      exact ⟨rfl, rfl⟩
    rw [List.foldl_cons]
    show (rest.foldl (Process.step outcome) p.idle).exited = _ ∧
      (rest.foldl (Process.step outcome) p.idle).stderr = _
    rw [foldl_step_ended outcome rest p.idle 0 hi.1]
    simp [verdict, firstError, hi]
  | .settled batch :: rest, p, hp, hnd, hmem => by
    have hnd' : (batch ++ settledTxs rest).Nodup := hnd
    have hb : batch.Nodup := (List.nodup_append.mp hnd').1
    have hr : (settledTxs rest).Nodup := (List.nodup_append.mp hnd').2.1
    have hdis : List.Disjoint batch (settledTxs rest) := (List.nodup_append.mp hnd').2.2
    have hmemb : ∀ i ∈ batch, i ∈ p.pending.map Prod.fst :=
      fun i hi => hmem i (List.mem_append_left _ hi)
    obtain ⟨t1, t2, t3⟩ := turn_spec outcome p batch hp hb hmemb
    rw [List.foldl_cons]
    show (rest.foldl (Process.step outcome) (p.turn outcome batch)).exited = _ ∧
      (rest.foldl (Process.step outcome) (p.turn outcome batch)).stderr = _
    by_cases hany : batch.any (fun i => (outcome i).isRejected) = true
    · obtain ⟨r, e, hfr, he⟩ := (find_rejected outcome batch).1 hany
      rw [hany] at t1
      rw [hfr] at t2
      rw [foldl_step_ended outcome rest _ 1 t1]
      simp only [verdict, firstError, hany, hfr, if_true]
      exact ⟨t1, t2⟩
    · have hany' : batch.any (fun i => (outcome i).isRejected) = false := by simpa using hany
      have hfr := (find_rejected outcome batch).2 hany'
      rw [hany'] at t1
      rw [hfr] at t2
      have hmem' : ∀ i ∈ settledTxs rest, i ∈ (p.turn outcome batch).pending.map Prod.fst := by
        intro i hi
        have hib : i ∉ batch := fun h => hdis h hi
        have := hmem i (List.mem_append_right _ hi)
        rw [t3]
        simp only [List.mem_map, List.mem_filter] at this ⊢
        obtain ⟨q, hq, hqi⟩ := this
        exact ⟨q, ⟨hq, by simpa [hqi] using hib⟩, hqi⟩
      obtain ⟨ih1, ih2⟩ := foldl_step_spec outcome rest (p.turn outcome batch) t1 hr hmem'
      simp only [verdict, firstError, hany', hfr]
      refine ⟨by simpa using ih1, ?_⟩
      rw [ih2, t2]
      simp

theorem main_sent (artifacts : Artifacts) :
    (main artifacts).sent
      = operatorAddresses.map (fun operatorAddress =>
          Tx.approveAndCall artifacts.tokenStakingContract_address (formatAmount 20000000 18)
            (delegation operatorAddress contractOwnerAddress) contractOwnerAddress)
        ++ operatorAddresses.map (fun operatorAddress =>
          Tx.authorizeOperatorContract operatorAddress
            artifacts.keepRandomBeaconOperatorContractAddress authorizer) :=
  rfl

theorem main_state (artifacts : Artifacts) :
    (main artifacts).exited = none ∧ (main artifacts).stderr = [] ∧
    (main artifacts).pending.map Prod.fst = List.range 12 :=
  ⟨rfl, rfl, rfl⟩

theorem verdict_one (outcome : Nat → Outcome) :
    ∀ (events : List Event), verdict outcome events = some 1 →
      ∃ i, i ∈ settledTxs events ∧ (outcome i).isRejected = true ∧
        firstError outcome events = (outcome i).error?
  | [], h => by simp [verdict] at h
  | .idle :: _, h => by simp [verdict] at h
  | .settled batch :: rest, h => by
    by_cases hany : batch.any (fun i => (outcome i).isRejected) = true
    · obtain ⟨r, e, hfr, _⟩ := (find_rejected outcome batch).1 hany
      have hr : (outcome r).isRejected = true := by
        have := List.find?_some hfr
        simpa using this
      refine ⟨r, List.mem_append_left _ (List.mem_of_find?_eq_some hfr), hr, ?_⟩
      simp only [firstError, hfr]
    · have hany' : batch.any (fun i => (outcome i).isRejected) = false := by simpa using hany
      have hfr := (find_rejected outcome batch).2 hany'
      simp only [verdict, hany', Bool.false_eq_true, if_false] at h
      obtain ⟨i, hi, hr, he⟩ := verdict_one outcome rest h
      refine ⟨i, List.mem_append_right _ hi, hr, ?_⟩
      simp only [firstError, hfr]
      exact he

theorem verdict_none_rejected (outcome : Nat → Outcome) :
    ∀ (events : List Event),
      (∀ i ∈ settledTxs events, (outcome i).isRejected = false) →
      verdict outcome events = (if Event.idle ∈ events then some 0 else none) ∧
      firstError outcome events = none
  | [], _ => by simp [verdict, firstError]
  | .idle :: _, _ => by simp [verdict, firstError]
  | .settled batch :: rest, h => by
    have hany : batch.any (fun i => (outcome i).isRejected) = false := by
      rw [List.any_eq_false]
      intro i hi
      rw [h i (List.mem_append_left _ hi)]
      simp
    have hfr := (find_rejected outcome batch).2 hany
    obtain ⟨ih1, ih2⟩ := verdict_none_rejected outcome rest
      (fun i hi => h i (List.mem_append_right _ hi))
    simp only [verdict, firstError, hany, hfr, Bool.false_eq_true, if_false]
    refine ⟨?_, ih2⟩
    rw [ih1]
    simp

/-- C5 (as stated, refuted): a failure for one address does stop the processing of the
sibling accounts. With the staking transactions of the first two operators rejected and
every other transaction fulfilled, each settling in a turn of its own, the first rejection
ends the process with code 1: only the first error reaches standard error (the failure of
the second address is never logged), the eleven other calls stay suspended for good, and no
completion message is ever written although ten transactions were fulfilled. -/
theorem first_failure_abandons_siblings :
    (run Examples.artifacts Examples.twoRejected Examples.onePerTurn).exitCode = some 1 ∧
    (run Examples.artifacts Examples.twoRejected Examples.onePerTurn).stderr
      = [Value.object 100] ∧
    Examples.twoRejected 1 = Outcome.rejected (.object 101) ∧
    Value.object 101 ∉ (run Examples.artifacts Examples.twoRejected Examples.onePerTurn).stderr ∧
    (run Examples.artifacts Examples.twoRejected Examples.onePerTurn).pending.map Prod.fst
      = [1, 2, 3, 4, 5, 6, 7, 8, 9, 10, 11] ∧
    Examples.twoRejected 2 = Outcome.fulfilled ∧
    "Account 0x9f778b5d9b6e598e5a9dfb789500f6cf20e3203e staked!".toList
      ∉ (run Examples.artifacts Examples.twoRejected Examples.onePerTurn).stdout ∧
    (run Examples.artifacts Examples.twoRejected Examples.onePerTurn).stdout
      = (main Examples.artifacts).stdout := by
  decide

/-- C5 (amended): the script exits with code 1 at the first turn in which the rejection of
a stake or authorize transaction is observed, and ends with the implicit code 0 if the
event loop runs empty before any rejection. The error of that first rejection, and nothing
else, is written to standard error, and from then on the process handles nothing: calls of
sibling accounts still awaiting are not resumed and later failures are not logged. No
failure keeps a transaction from being sent: all twelve are sent by the two loops before
any outcome is observed. -/
theorem script_exit_code (artifacts : Artifacts) (outcome : Nat → Outcome)
    (events : List Event) (h : wellFormed events) :
    (run artifacts outcome events).exitCode = verdict outcome events ∧
    (run artifacts outcome events).stderr = (firstError outcome events).toList ∧
    (run artifacts outcome events).sent = (main artifacts).sent ∧
    (run artifacts outcome events).sent.length = 2 * operatorAddresses.length ∧
    ((run artifacts outcome events).exitCode = some 1 →
      ∃ i, i ∈ settledTxs events ∧ (outcome i).isRejected = true ∧
        (run artifacts outcome events).stderr = (outcome i).error?.toList) ∧
    ((∀ i ∈ settledTxs events, (outcome i).isRejected = false) →
      (run artifacts outcome events).exitCode
        = (if Event.idle ∈ events then some 0 else none) ∧
      (run artifacts outcome events).stderr = []) ∧
    (∀ more : List Event, (run artifacts outcome events).exitCode ≠ none →
      run artifacts outcome (events ++ more) = run artifacts outcome events) := by
  obtain ⟨hex, herr, hpend⟩ := main_state artifacts
  have hmem : ∀ i ∈ settledTxs events, i ∈ (main artifacts).pending.map Prod.fst := by
    intro i hi
    rw [hpend]
    exact List.mem_range.mpr (h.2 i hi)
  obtain ⟨hcode, hstderr⟩ := foldl_step_spec outcome events (main artifacts) hex h.1 hmem
  rw [herr, List.nil_append] at hstderr
  have hcode' : (run artifacts outcome events).exitCode = verdict outcome events := hcode
  have hstderr' : (run artifacts outcome events).stderr = (firstError outcome events).toList :=
    hstderr
  have hsent : (run artifacts outcome events).sent = (main artifacts).sent :=
    foldl_step_sent outcome events (main artifacts)
  refine ⟨hcode', hstderr', hsent, ?_, ?_, ?_, ?_⟩
  · rw [hsent, main_sent]
    rfl
  · intro h1
    rw [hcode'] at h1
    obtain ⟨i, hi, hr, he⟩ := verdict_one outcome events h1
    exact ⟨i, hi, hr, by rw [hstderr', he]⟩
  · intro hnone
    obtain ⟨v1, v2⟩ := verdict_none_rejected outcome events hnone
    exact ⟨by rw [hcode', v1], by rw [hstderr', v2]; rfl⟩
  · intro more hended
    cases hc : (run artifacts outcome events).exited with
    | none => exact absurd hc hended
    | some code =>
      show (events ++ more).foldl (Process.step outcome) (main artifacts) = _
      rw [List.foldl_append]
      exact foldl_step_ended outcome more _ code hc

/-- Witness of `script_exit_code`: the six authorizations settle in one turn, the fourth
one rejected; the script exits with code 1 and the staking transactions are never
handled. -/
theorem script_exit_code_witness :
    wellFormed Examples.authorizationsFirst ∧
    (run Examples.artifacts Examples.oneRejected Examples.authorizationsFirst).exitCode
      = some 1 ∧
    (run Examples.artifacts Examples.oneRejected Examples.authorizationsFirst).stderr
      = [Value.object 4] :=
  have h := script_exit_code Examples.artifacts Examples.oneRejected
    Examples.authorizationsFirst ⟨by decide, by decide⟩
  ⟨⟨by decide, by decide⟩, h.1.trans (by decide), h.2.1.trans (by decide)⟩

/-- Calls whose transactions are fulfilled in the turn of a rejection still log their
completion message before the `catch` handler ends the process: with transactions 0
(rejected), 1 and 2 (fulfilled) settling in one turn, standard output has the twelve
announcements and two completion messages. -/
theorem same_turn_fulfilments_are_logged :
    (run Examples.artifacts
      (fun i => if i = 0 then .rejected (.object 100) else .fulfilled)
      [.settled [0, 1, 2]]).stdout
      = (main Examples.artifacts).stdout ++
        ["Account 0xb4f78caa0ad8c8c700eaac42b68e5db4f9efeddf staked!".toList,
          "Account 0x9f778b5d9b6e598e5a9dfb789500f6cf20e3203e staked!".toList] ∧
    (run Examples.artifacts
      (fun i => if i = 0 then .rejected (.object 100) else .fulfilled)
      [.settled [0, 1, 2]]).exitCode = some 1 := by
  decide

/-- C6: for the six hard-coded operator addresses the script sends exactly twelve
transactions, in this order: one `approveAndCall(tokenStakingContract.address, amount,
delegation of the address)` from the contract owner per address, in list order, then one
`authorizeOperatorContract(address, keepRandomBeaconOperatorContractAddress)` from the
authorizer per address, in list order. All twelve are already sent when the top-level
statements have run, before any outcome is known, and no later settlement adds, removes or
reorders one. -/
theorem script_issue_order (artifacts : Artifacts) (outcome : Nat → Outcome)
    (events : List Event) :
    operatorAddresses.length = 6 ∧
    (main artifacts).sent
      = operatorAddresses.map (fun operatorAddress =>
          Tx.approveAndCall artifacts.tokenStakingContract_address (formatAmount 20000000 18)
            (delegation operatorAddress contractOwnerAddress) contractOwnerAddress)
        ++ operatorAddresses.map (fun operatorAddress =>
          Tx.authorizeOperatorContract operatorAddress
            artifacts.keepRandomBeaconOperatorContractAddress authorizer) ∧
    (main artifacts).sent.length = 12 ∧
    (main artifacts).exited = none ∧
    (run artifacts outcome events).sent = (main artifacts).sent :=
  ⟨rfl, main_sent artifacts, rfl, rfl, foldl_step_sent outcome events (main artifacts)⟩

/-- C10 (the code departs from what it announces): `stakeOperatorAccount` logs that it
stakes 2000000 KEEP tokens, but the amount it passes to `approveAndCall` is
`formatAmount(20000000, 18)`, the hex rendering of `20000000 * 10^18` base units, ten times
the announced `2000000 * 10^18`. -/
theorem staked_amount_is_ten_times_announced (artifacts : Artifacts)
    (operatorAddress contractOwnerAddress : Str) :
    (stakeOperatorAccount artifacts operatorAddress contractOwnerAddress).announce
      = "Staking 2000000 KEEP tokens on operator account ".toList ++ operatorAddress ∧
    (stakeOperatorAccount artifacts operatorAddress contractOwnerAddress).tx
      = Tx.approveAndCall artifacts.tokenStakingContract_address
          "0x108b2a2c28029094000000".toList
          (delegation operatorAddress contractOwnerAddress) contractOwnerAddress ∧
    parseHex ("0x108b2a2c28029094000000".toList.drop 2) = 20000000 * 10 ^ 18 ∧
    formatAmount 2000000 18 = "0x1a784379d99db42000000".toList ∧
    formatAmount 20000000 18 ≠ formatAmount 2000000 18 := by
  have e : formatAmount 20000000 18 = "0x108b2a2c28029094000000".toList := by decide
  refine ⟨rfl, ?_, by decide, by decide, by decide⟩
  rw [← e]
  rfl

end StakeAccountsJs

namespace UseEtherscanUrlJs
open JS

/-- C8: `useEtherscanUrl` returns the mainnet URL `https://explorer.rsk.co/` exactly when
the chain id is the number 30 and the testnet URL `https://explorer.testnet.rsk.co` for
every other chain id; the result is always one of the two. -/
theorem useEtherscanUrl_by_chain_id (chainID : Value) :
    (useEtherscanUrl chainID = "https://explorer.rsk.co/".toList ↔ chainID = .number 30) ∧
    (useEtherscanUrl chainID = "https://explorer.testnet.rsk.co".toList
      ↔ chainID ≠ .number 30) ∧
    (useEtherscanUrl chainID = "https://explorer.rsk.co/".toList ∨
      useEtherscanUrl chainID = "https://explorer.testnet.rsk.co".toList) := by
  have hne : "https://explorer.testnet.rsk.co".toList ≠ "https://explorer.rsk.co/".toList := by
    decide
  have hs : strictEquals chainID (.number 30) = true ↔ chainID = .number 30 := by
    cases chainID <;> simp [strictEquals]
  unfold useEtherscanUrl
  by_cases h : chainID = .number 30
  · rw [if_pos (hs.mpr h)]
    exact ⟨⟨fun _ => h, fun _ => rfl⟩, ⟨fun e => absurd e.symm hne, fun e => absurd h e⟩,
      Or.inl rfl⟩
  · rw [if_neg (fun e => h (hs.mp e))]
    exact ⟨⟨fun e => absurd e hne, fun e => absurd e h⟩, ⟨fun _ => h, fun _ => rfl⟩,
      Or.inr rfl⟩

end UseEtherscanUrlJs

namespace DelegatedTokensJsx
open JS

/-- C7 (as stated, refuted): with `stakedBalance = 0` the expression
`stakedBalance && displayAmount(stakedBalance)` has the value `0`, which is rendered as the
text `0`; the balance element is not empty. -/
theorem zero_balance_renders_zero :
    balanceChild (fun _ => "0 KEEP".toList) (.number 0) = .number 0 ∧
    balanceText (fun _ => "0 KEEP".toList) (.number 0) = some ['0'] ∧
    balanceText (fun _ => "0 KEEP".toList) (.number 0) ≠ some [] := by
  decide

/-- C7 (amended): with `stakedBalance = 0` the falsy check skips `displayAmount`, but the
expression evaluates to `0` itself and the balance element shows the text `0`; the element
renders empty for the falsy values `undefined`, `null`, `false` and `''`; for any truthy
value (the string `'0'` included) it shows what `displayAmount` returns. -/
theorem balance_rendering (displayAmount : Value → Str) (stakedBalance : Value) :
    balanceChild displayAmount (.number 0) = .number 0 ∧
    balanceText displayAmount (.number 0) = some ['0'] ∧
    balanceText displayAmount .undefined = some [] ∧
    balanceText displayAmount .null = some [] ∧
    balanceText displayAmount (.boolean false) = some [] ∧
    balanceText displayAmount (.string []) = some [] ∧
    balanceText displayAmount (.string ['0']) = some (displayAmount (.string ['0'])) ∧
    balanceText displayAmount stakedBalance
      = (if toBoolean stakedBalance then some (displayAmount stakedBalance)
        else renderChild stakedBalance) := by
  refine ⟨rfl, rfl, rfl, rfl, rfl, rfl, rfl, ?_⟩
  unfold balanceText balanceChild logicalAnd
  split <;> rfl

end DelegatedTokensJsx
